import Mathlib

/-!
Verification of the generic adapter skeleton of the aws-source repository:
the `GetListSource` Get/List/Search operations (src/sources/get_list_source.go),
the shared helpers `FormatScope`, `CanRetry`, `ARN`, `ParseARN`, `WrapAWSError`,
`HandleTagsError` (adapters helper file), and the pagination machinery
exercised by describe_source_test.go together with the token-based paginator
of src/sources/ecs/capacity_provider.go.

Go machine integers, contexts and telemetry spans are irrelevant to the
verified properties; durations are modelled as `Nat` (nanoseconds, like Go's
`time.Duration` for the non-negative values used here), fallible Go calls as
`Except GoError`, and nil function pointers as `Option` fields.  The response
cache (the external sdpcache library) is modelled from the spec's contract in
section 4.3.  Each adapter operation returns, besides its Go result, the
updated cache and the list of provider invocations it performed, so that
"the provider is not re-invoked" is a statement of the embedding.
-/

namespace AwsSource

/-- The sdp.QueryError error classes relevant to this repository
(sdp-go is an external dependency; the spec's error taxonomy names
scope-mismatch, not-found and generic/other classes). -/
inductive QueryErrorType where
  | NOTFOUND
  | NOSCOPE
  | OTHER
  deriving DecidableEq, Repr

/-- An sdp.QueryError: a classified error with a message. -/
structure QueryError where
  errorType : QueryErrorType
  errorString : String
  deriving DecidableEq, Repr

/-- A Go `error` value as the adapter code observes it: an HTTP response
error from the AWS transport (with a status code), an sdp.QueryError
travelling as an error, or any other (generic) error. -/
inductive GoError where
  | httpResponseError (status : Nat) (msg : String)
  | queryError (e : QueryError)
  | generic (msg : String)
  deriving DecidableEq, Repr

/-- The text `err.Error()` of a Go error, as carried by the embedding. -/
def GoError.message : GoError → String
  | .httpResponseError _ m => m
  | .queryError e => e.errorString
  | .generic m => m

/-- WrapAWSError (adapters helper file, lines 116-131): an HTTP response
error with status 400, 403 or 404 becomes a NOTFOUND query error carrying
`err.Error()`; everything else goes through sdp.NewQueryError, which keeps
an existing *sdp.QueryError and wraps any other error as a generic (OTHER)
query error (sdp-go is external; the spec says "generic otherwise"). -/
def WrapAWSError : GoError → QueryError
  | .httpResponseError status msg =>
    if status = 400 ∨ status = 403 ∨ status = 404 then
      { errorType := .NOTFOUND, errorString := msg }
    else
      { errorType := .OTHER, errorString := msg }
  | .queryError e => e
  | .generic msg => { errorType := .OTHER, errorString := msg }

/-- CanRetry (adapters helper file, lines 49-56): NOTFOUND and NOSCOPE
errors should not be retried (and hence may be negatively cached). -/
def CanRetry (err : QueryError) : Bool :=
  match err.errorType with
  | .NOTFOUND | .NOSCOPE => false
  | _ => true

/-- HandleTagsError (adapters helper file, lines 136-152): the standardised
marker tag map for a failed tag fetch (the span event is telemetry and is
not modelled). -/
def HandleTagsError (err : GoError) : List (String × String) :=
  [("errorGettingTags", "true"), ("error", err.message)]

/-- FormatScope (adapters helper file, lines 27-33). -/
def FormatScope (accountID region : String) : String :=
  if region = "" then accountID else accountID ++ "." ++ region

/-! ## ARN parsing -/

/-- The parsed ARN fields the repository cares about (the Go type embeds
the AWS SDK's arn.ARN). -/
structure ARN where
  partition : String
  service : String
  region : String
  accountID : String
  resource : String
  deriving DecidableEq, Repr

/-- The separator predicate used by ARN.ResourceID and ARN.Type:
a rune that is a slash or a colon. -/
def resourceSeparator (c : Char) : Bool :=
  c = '/' || c = ':'

/-- Go's strings.IndexFunc restricted to the separator predicate: the index
of the first slash or colon, or `none` for Go's -1. -/
def indexOfSep : List Char → Option Nat
  | [] => none
  | c :: cs => if resourceSeparator c then some 0 else (indexOfSep cs).map (· + 1)

/-- ARN.ResourceID (adapters helper file, lines 72-80): everything after the
first `/` or `:` of the resource component.  When there is no separator Go
computes `Resource[-1+1:]`, i.e. the whole resource. -/
def ARN.ResourceID (a : ARN) : String :=
  match indexOfSep a.resource.toList with
  | some i => String.mk (a.resource.toList.drop (i + 1))
  | none => a.resource

/-- ARN.Type (adapters helper file, lines 87-99): everything before the
first `/` or `:` of the resource component, or the whole resource when there
is no separator.  (`Type` is reserved in Lean, hence the prime.) -/
def ARN.type' (a : ARN) : String :=
  match indexOfSep a.resource.toList with
  | some i => String.mk (a.resource.toList.take i)
  | none => a.resource

/-- Splitting a character list on colons, every occurrence
(Go strings.Split behaviour for a single-character separator). -/
def splitOnColon : List Char → List (List Char)
  | [] => [[]]
  | c :: cs =>
    let rest := splitOnColon cs
    if c = ':' then [] :: rest
    else
      match rest with
      | [] => [[c]]
      | r :: rs => (c :: r) :: rs

/-- Joining with colons (Go strings.Join with separator ":"), used to fuse
the unsplit remainder exactly as strings.SplitN leaves it. -/
def joinColon : List (List Char) → List Char
  | [] => []
  | [x] => x
  | x :: xs => x ++ ':' :: joinColon xs

/-- Go strings.SplitN(s, ":", 6): at most six parts, the sixth keeping the
unsplit remainder. -/
def splitNColon6 (l : List Char) : List (List Char) :=
  let parts := splitOnColon l
  if parts.length ≤ 6 then parts else parts.take 5 ++ [joinColon (parts.drop 5)]

/-- Modelled from the spec: the AWS SDK's arn.Parse, an external dependency
the repository calls from ParseARN.  Section 4.2 of the spec: "parse a
colon-delimited resource identifier into structured fields", failing "with a
parse error on malformed input".  The SDK requires the literal arn marker
and six colon-separated sections arn:partition:service:region:account-id:resource,
the resource section keeping any further separators. -/
def arnParse (s : String) : Except GoError ARN :=
  let l := s.toList
  if l.take 4 = ['a', 'r', 'n', ':'] then
    match splitNColon6 l with
    | [_, p, sv, r, acc, res] =>
      .ok { partition := String.mk p, service := String.mk sv, region := String.mk r,
            accountID := String.mk acc, resource := String.mk res }
    | _ => .error (.generic "arn: not enough sections")
  else .error (.generic "arn: invalid prefix")

/-- ParseARN (adapters helper file, lines 104-113): delegates to the SDK's
arn.Parse and wraps the result. -/
def ParseARN (s : String) : Except GoError ARN :=
  arnParse s

/-! ## The response cache

The sdpcache library is an external dependency; the spec (section 4.3) gives
its contract: `Lookup(queryKey) -> (hit bool, key, items, error)`,
`StoreItem(item, ttl, key)`, `StoreError(err, ttl, key)`, keys being
(adapter name, query method, scope, item type, query string).  Cached
negative errors are surfaced by `Lookup` as its error result.  TTLs are
recorded on every entry; time-based expiry is not modelled (the claims all
speak within the TTL window). -/

inductive QueryMethod where
  | GET
  | LIST
  | SEARCH
  deriving DecidableEq, Repr

structure CacheKey where
  sourceName : String
  method : QueryMethod
  scope : String
  itemType : String
  query : String
  deriving DecidableEq, Repr

/-- The generic graph item, restricted to the fields the verified claims
observe (sdp.Item also carries linked-item queries and health, which no
claim mentions). -/
structure Item where
  itemType : String
  uniqueAttribute : String
  attributes : List (String × String)
  scope : String
  tags : Option (List (String × String))
  deriving DecidableEq, Repr

/-- A cache entry: prior items or a negative (error) entry, with its TTL. -/
inductive CacheEntry where
  | items (xs : List Item) (ttl : Nat)
  | error (e : QueryError) (ttl : Nat)
  deriving DecidableEq, Repr

def Cache : Type := CacheKey → Option CacheEntry

def emptyCache : Cache := fun _ => none

/-- StoreItem: appends the item to the items held under the key (this is how
the per-item stores of a List call accumulate into one hit), resetting the
entry's TTL; a negative entry under the key is displaced. -/
def storeItem (cache : Cache) (ck : CacheKey) (item : Item) (ttl : Nat) : Cache :=
  fun k =>
    if k = ck then
      match cache ck with
      | some (.items xs _) => some (.items (xs ++ [item]) ttl)
      | _ => some (.items [item] ttl)
    else cache k

/-- StoreError: records a negative entry under the key. -/
def storeError (cache : Cache) (ck : CacheKey) (e : QueryError) (ttl : Nat) : Cache :=
  fun k => if k = ck then some (.error e ttl) else cache k

inductive LookupResult where
  | miss
  | cachedItems (xs : List Item)
  | cachedError (e : QueryError)
  deriving DecidableEq, Repr

/-- Lookup: with ignoreCache the cache is bypassed (a miss); otherwise a hit
returns the stored items and a stored negative entry returns its error. -/
def cacheLookup (cache : Cache) (ck : CacheKey) (ignoreCache : Bool) : LookupResult :=
  if ignoreCache then .miss
  else
    match cache ck with
    | none => .miss
    | some (.items xs _) => .cachedItems xs
    | some (.error e _) => .cachedError e

/-- Modelled from the spec: `DefaultCacheDuration` is declared in the
repository's describe_source.go, which is not under src/; the spec's data
model says "cache entries expire after a configurable TTL (default applies
when unset)".  Modelled as one hour of nanoseconds; the claims need only
that the default is a fixed nonzero duration. -/
def DefaultCacheDuration : Nat := 3600000000000

/-! ## GetListSource (src/sources/get_list_source.go) -/

/-- A provider invocation performed during an operation: which injected
function was called and with what arguments.  (The Go code performs these
as side-effecting calls; the embedding logs them.) -/
inductive ProviderCall where
  | getCall (scope query : String)
  | listCall (scope : String)
  | searchCall (scope query : String)
  | listTagsCall
  deriving DecidableEq, Repr

/-- The result of a Go call that returns a value and an error: `ok`, a
returned *sdp.QueryError, or the panic of calling a nil function field. -/
inductive Outcome (α : Type) where
  | ok (val : α)
  | queryErr (e : QueryError)
  | nilPanic
  deriving DecidableEq, Repr

/-- GetListSource (get_list_source.go, lines 16-48).  Function fields are
`Option` because Go function pointers may be nil (Validate checks this and
Search and the tag path branch on it); the cache is threaded explicitly
through the operations instead of living behind the lazily initialised
pointer (the mutex-guarded `ensureCache` is concurrency plumbing with no
effect on any verified property). -/
structure GetListSource (AWSItem ClientStruct : Type) where
  ItemType : String
  Client : ClientStruct
  AccountID : String
  Region : String
  SupportGlobalResources : Bool
  CacheDuration : Nat
  DisableList : Bool
  GetFunc : Option (ClientStruct → String → String → Except GoError AWSItem)
  ListFunc : Option (ClientStruct → String → Except GoError (List AWSItem))
  SearchFunc : Option (ClientStruct → String → String → Except GoError (List AWSItem))
  ItemMapper : Option (String → AWSItem → Except GoError Item)
  ListTagsFunc : Option (AWSItem → ClientStruct → Except GoError (List (String × String)))

namespace GetListSource

variable {AWSItem ClientStruct : Type}

/-- cacheDuration (lines 50-56): the configured duration, defaulting when
unset (zero). -/
def cacheDuration (s : GetListSource AWSItem ClientStruct) : Nat :=
  if s.CacheDuration = 0 then DefaultCacheDuration else s.CacheDuration

/-- Validate (lines 73-89); `some msg` is the Go error, `none` success. -/
def Validate (s : GetListSource AWSItem ClientStruct) : Option String :=
  if s.GetFunc.isNone then some "GetFunc is nil"
  else if ¬s.DisableList ∧ s.ListFunc.isNone then some "ListFunc is nil"
  else if s.ItemMapper.isNone then some "ItemMapper is nil"
  else none

/-- Name (lines 95-97). -/
def Name (s : GetListSource AWSItem ClientStruct) : String :=
  s.ItemType ++ "-source"

/-- Scopes (lines 101-111). -/
def Scopes (s : GetListSource AWSItem ClientStruct) : List String :=
  [FormatScope s.AccountID s.Region] ++ (if s.SupportGlobalResources then ["aws"] else [])

/-- hasScope (lines 114-128). -/
def hasScope (s : GetListSource AWSItem ClientStruct) (scope : String) : Bool :=
  (scope = "aws" && s.SupportGlobalResources) || s.Scopes.contains scope

/-- The NOSCOPE error built by Get, List and Search (lines 132-135 etc.). -/
def noScopeError (s : GetListSource AWSItem ClientStruct) (scope : String) : QueryError :=
  { errorType := .NOSCOPE,
    errorString := "requested scope " ++ scope ++ " does not match source scope "
      ++ s.Scopes.headD "" }

/-- processError (lines 301-314): wrap the error, and cache it (with the
defaulted duration) exactly when it is NOTFOUND or NOSCOPE.  Returns the
wrapped error together with the cache effect. -/
def processError (s : GetListSource AWSItem ClientStruct) (cache : Cache) (ck : CacheKey)
    (err : GoError) : QueryError × Cache :=
  let sdpErr := WrapAWSError err
  if sdpErr.errorType = .NOTFOUND ∨ sdpErr.errorType = .NOSCOPE then
    (sdpErr, storeError cache ck sdpErr s.cacheDuration)
  else
    (sdpErr, cache)

/-- The cache key Get uses (line 139). -/
def getKey (s : GetListSource AWSItem ClientStruct) (scope query : String) : CacheKey :=
  { sourceName := s.Name, method := .GET, scope := scope, itemType := s.ItemType, query := query }

/-- The cache key List uses (line 190; the query component is empty). -/
def listKey (s : GetListSource AWSItem ClientStruct) (scope : String) : CacheKey :=
  { sourceName := s.Name, method := .LIST, scope := scope, itemType := s.ItemType, query := "" }

/-- Get (lines 130-173).  Returns the Go result (a possibly-nil item
pointer or an error), the cache after the call, and the provider calls
made.  Note the item store on line 170 passes the raw `s.CacheDuration`
field, not the defaulted `s.cacheDuration()`. -/
def Get (s : GetListSource AWSItem ClientStruct) (cache : Cache) (scope query : String)
    (ignoreCache : Bool) : Outcome (Option Item) × Cache × List ProviderCall :=
  if s.hasScope scope = false then
    (.queryErr (s.noScopeError scope), cache, [])
  else
    let ck := s.getKey scope query
    match cacheLookup cache ck ignoreCache with
    | .cachedError e => (.queryErr e, cache, [])
    | .cachedItems xs => (.ok xs.head?, cache, [])
    | .miss =>
      match s.GetFunc with
      | none => (.nilPanic, cache, [])
      | some getFunc =>
        match getFunc s.Client scope query with
        | .error e =>
          let pe := s.processError cache ck e
          (.queryErr pe.1, pe.2, [.getCall scope query])
        | .ok awsItem =>
          match s.ItemMapper with
          | none => (.nilPanic, cache, [.getCall scope query])
          | some mapper =>
            match mapper scope awsItem with
            | .error e =>
              let pe := s.processError cache ck e
              (.queryErr pe.1, pe.2, [.getCall scope query])
            | .ok item =>
              match s.ListTagsFunc with
              | none =>
                (.ok (some item), storeItem cache ck item s.CacheDuration, [.getCall scope query])
              | some listTags =>
                match listTags awsItem s.Client with
                | .ok tags =>
                  let item := { item with tags := some tags }
                  (.ok (some item), storeItem cache ck item s.CacheDuration,
                    [.getCall scope query, .listTagsCall])
                | .error e =>
                  let item := { item with tags := some (HandleTagsError e) }
                  (.ok (some item), storeItem cache ck item s.CacheDuration,
                    [.getCall scope query, .listTagsCall])

/-- The per-item loop of List (lines 204-221): a mapper failure skips the
item; a tag-fetch failure aborts through processError; a surviving item is
appended and stored under the List key with the defaulted duration. -/
def listLoop (s : GetListSource AWSItem ClientStruct)
    (mapper : String → AWSItem → Except GoError Item) (ck : CacheKey) (scope : String) :
    List AWSItem → Cache → List Item → List ProviderCall →
      Outcome (List Item) × Cache × List ProviderCall
  | [], cache, items, calls => (.ok items, cache, calls)
  | a :: rest, cache, items, calls =>
    match mapper scope a with
    | .error _ => s.listLoop mapper ck scope rest cache items calls
    | .ok item =>
      match s.ListTagsFunc with
      | none =>
        s.listLoop mapper ck scope rest (storeItem cache ck item s.cacheDuration)
          (items ++ [item]) calls
      | some listTags =>
        match listTags a s.Client with
        | .ok tags =>
          let item := { item with tags := some tags }
          s.listLoop mapper ck scope rest (storeItem cache ck item s.cacheDuration)
            (items ++ [item]) (calls ++ [.listTagsCall])
        | .error e =>
          let pe := s.processError cache ck e
          (.queryErr pe.1, pe.2, calls ++ [.listTagsCall])

/-- List (lines 177-224).  A ListFunc failure is wrapped but not cached
(line 200); the DisableList short-circuit (lines 185-187) runs before the
cache is consulted. -/
def List' (s : GetListSource AWSItem ClientStruct) (cache : Cache) (scope : String)
    (ignoreCache : Bool) : Outcome (List Item) × Cache × List ProviderCall :=
  if s.hasScope scope = false then
    (.queryErr (s.noScopeError scope), cache, [])
  else if s.DisableList then
    (.ok [], cache, [])
  else
    let ck := s.listKey scope
    match cacheLookup cache ck ignoreCache with
    | .cachedError e => (.queryErr e, cache, [])
    | .cachedItems xs => (.ok xs, cache, [])
    | .miss =>
      match s.ListFunc with
      | none => (.nilPanic, cache, [])
      | some listFunc =>
        match listFunc s.Client scope with
        | .error e => (.queryErr (WrapAWSError e), cache, [.listCall scope])
        | .ok awsItems =>
          match s.ItemMapper with
          | none =>
            match awsItems with
            | [] => (.ok [], cache, [.listCall scope])
            | _ => (.nilPanic, cache, [.listCall scope])
          | some mapper => s.listLoop mapper ck scope awsItems cache [] [.listCall scope]

/-- SearchCustom (lines 267-288): runs SearchFunc, skips items whose
mapping fails, performs no caching at all (the ignoreCache argument is
received but never used, as in the Go code). -/
def SearchCustom (s : GetListSource AWSItem ClientStruct) (cache : Cache)
    (scope query : String) (_ignoreCache : Bool) :
    Outcome (List Item) × Cache × List ProviderCall :=
  match s.SearchFunc with
  | none => (.nilPanic, cache, [])
  | some searchFunc =>
    match searchFunc s.Client scope query with
    | .error e => (.queryErr (WrapAWSError e), cache, [.searchCall scope query])
    | .ok awsItems =>
      match s.ItemMapper with
      | none =>
        match awsItems with
        | [] => (.ok [], cache, [.searchCall scope query])
        | _ => (.nilPanic, cache, [.searchCall scope query])
      | some mapper =>
        (.ok (awsItems.filterMap fun a => (mapper scope a).toOption), cache,
          [.searchCall scope query])

/-- SearchARN (lines 242-265): parse the ARN, check its scope, then
delegate to Get on the resource ID.  Go wraps the single returned pointer
in a one-element slice; the nil pointer Get can return after an empty
cache hit is modelled by the empty list (`Option.toList`). -/
def SearchARN (s : GetListSource AWSItem ClientStruct) (cache : Cache)
    (scope query : String) (ignoreCache : Bool) :
    Outcome (List Item) × Cache × List ProviderCall :=
  match ParseARN query with
  | .error e => (.queryErr (WrapAWSError e), cache, [])
  | .ok a =>
    let arnScope := FormatScope a.accountID a.region
    if s.hasScope arnScope = false then
      let e : QueryError :=
        { errorType := .NOSCOPE,
          errorString := "ARN scope " ++ arnScope ++ " does not match request scope " ++ scope }
      (.queryErr e, cache, [])
    else
      match s.Get cache scope a.ResourceID ignoreCache with
      | (.ok optItem, cache', calls) => (.ok optItem.toList, cache', calls)
      | (.queryErr e, cache', calls) =>
        (.queryErr (WrapAWSError (.queryError e)), cache', calls)
      | (.nilPanic, cache', calls) => (.nilPanic, cache', calls)

/-- Search (lines 227-240): the scope check, then the custom search when a
SearchFunc is set, otherwise ARN-based search. -/
def Search (s : GetListSource AWSItem ClientStruct) (cache : Cache) (scope query : String)
    (ignoreCache : Bool) : Outcome (List Item) × Cache × List ProviderCall :=
  if s.hasScope scope = false then
    (.queryErr (s.noScopeError scope), cache, [])
  else
    match s.SearchFunc with
    | some _ => s.SearchCustom cache scope query ignoreCache
    | none => s.SearchARN cache scope query ignoreCache

end GetListSource

/-! ## Pagination

The `Paginator` interface (`HasMorePages() bool`,
`NextPage(ctx) -> (output, error)`) is the one the spec names in section 6
and describe_source_test.go exercises. -/

/-- A paginator over states of type `σ` producing outputs of type `Out`:
the interface methods as pure functions of the paginator state (the Go
methods mutate the receiver; errors from the underlying client call are not
modelled, no claim needing them). -/
structure Paginator (σ Out : Type) where
  hasMorePages : σ → Bool
  nextPage : σ → Out × σ

/-- Modelled from the spec: the pagination loop of DescribeOnlySource.List
(describe_source.go is not under src/): section 4.4 step 4, "a pagination
loop that accumulates pages until no continuation token remains" —
`for paginator.HasMorePages() { output := paginator.NextPage(); items =
append(items, OutputMapper(output)...) }` as exercised by TestPaginated.
The loop is given fuel; `none` means the fuel ran out with pages still
remaining, so `some` results witness termination. -/
def paginateList (p : Paginator σ Out) (outputMapper : Out → List Item) :
    Nat → σ → List Item → Option (List Item)
  | 0, st, acc => if p.hasMorePages st then none else some acc
  | fuel + 1, st, acc =>
    if p.hasMorePages st then
      let (out, st') := p.nextPage st
      paginateList p outputMapper fuel st' (acc ++ outputMapper out)
    else some acc

/-- The state of the TestPaginator of describe_source_test.go
(lines 553-572): a page counter and the MaxPages bound. -/
structure TestPaginatorState where
  MaxPages : Nat
  page : Nat
  deriving DecidableEq, Repr

/-- TestPaginator: HasMorePages defaults MaxPages to 3 when it is zero and
checks `page < MaxPages`; NextPage yields the DataFunc value and increments
the page (the Go default-setting mutates the receiver; reading the
defaulted bound in every HasMorePages call is equivalent). -/
def testPaginator (data : String) : Paginator TestPaginatorState String :=
  { hasMorePages := fun st => st.page < (if st.MaxPages = 0 then 3 else st.MaxPages)
    nextPage := fun st => (data, { st with page := st.page + 1 }) }

/-- The state of DescribeCapacityProvidersPaginator
(src/sources/ecs/capacity_provider.go, lines 91-96): the first-page flag
and the continuation token. -/
structure CapacityPaginatorState where
  firstPage : Bool
  nextToken : Option String
  deriving DecidableEq, Repr

/-- DescribeCapacityProvidersPaginator (capacity_provider.go, lines
113-141), over an abstract backend taking the continuation token: more
pages exist on the first page or while the token is non-nil and non-empty;
NextPage calls the backend, clears the first-page flag, and — the
same-token detection — nils the token when the backend returns the very
token it was just given. -/
def capacityProvidersPaginator (backend : Option String → Out × Option String) :
    Paginator CapacityPaginatorState Out :=
  { hasMorePages := fun st =>
      st.firstPage || (match st.nextToken with
        | some t => decide (t.length ≠ 0)
        | none => false)
    nextPage := fun st =>
      let (result, newToken) := backend st.nextToken
      let tok :=
        match st.nextToken, newToken with
        | some prev, some new => if prev = new then none else some new
        | _, _ => newToken
      (result, { firstPage := false, nextToken := tok }) }

/-! ## Helper lemmas -/

namespace GetListSource

variable {AWSItem ClientStruct : Type}

/-- hasScope agrees with membership in Scopes(): the special global-scope
branch is subsumed because SupportGlobalResources puts "aws" into Scopes. -/
theorem hasScope_eq_contains (s : GetListSource AWSItem ClientStruct) (scope : String) :
    s.hasScope scope = s.Scopes.contains scope := by
  unfold hasScope Scopes
  cases hg : s.SupportGlobalResources with
  | false => simp
  | true =>
    by_cases haws : scope = "aws" <;> simp [haws]

end GetListSource

/-! ## C1: unserved scopes are rejected without invoking the provider -/

/-- C1: for every GetListSource and every scope not in Scopes(), Get, List
and Search all return a NOSCOPE query error, leave the cache untouched, and
invoke none of the injected provider functions. -/
theorem claim1_unserved_scope_rejected {AWSItem ClientStruct : Type}
    (s : GetListSource AWSItem ClientStruct) (cache : Cache)
    (scope query : String) (ignoreCache : Bool)
    (h : s.Scopes.contains scope = false) :
    s.Get cache scope query ignoreCache = (.queryErr (s.noScopeError scope), cache, [])
    ∧ s.List' cache scope ignoreCache = (.queryErr (s.noScopeError scope), cache, [])
    ∧ s.Search cache scope query ignoreCache = (.queryErr (s.noScopeError scope), cache, [])
    ∧ (s.noScopeError scope).errorType = .NOSCOPE := by
  have hs : s.hasScope scope = false := by
    rw [GetListSource.hasScope_eq_contains]; exact h
  refine ⟨?_, ?_, ?_, rfl⟩ <;>
    simp [GetListSource.Get, GetListSource.List', GetListSource.Search, hs]

/-- A concrete adapter used by the witnesses: account 123456789012 in
eu-west-2, AWS items are naturals, the client is trivial. -/
def witnessSource : GetListSource Nat Unit :=
  { ItemType := "test-type"
    Client := ()
    AccountID := "123456789012"
    Region := "eu-west-2"
    SupportGlobalResources := false
    CacheDuration := 0
    DisableList := false
    GetFunc := some fun _ _ _ => .ok 7
    ListFunc := some fun _ _ => .ok [1, 2, 3]
    SearchFunc := none
    ItemMapper := some fun scope a =>
      .ok { itemType := "test-type", uniqueAttribute := "name"
            attributes := [("name", String.mk (List.replicate a 'x'))]
            scope := scope, tags := none }
    ListTagsFunc := none }

theorem claim1_witness :
    witnessSource.Scopes.contains "999999999999.us-east-1" = false
    ∧ witnessSource.Get emptyCache "999999999999.us-east-1" "q" false
        = (.queryErr (witnessSource.noScopeError "999999999999.us-east-1"), emptyCache, []) :=
  ⟨by decide, (claim1_unserved_scope_rejected witnessSource emptyCache
    "999999999999.us-east-1" "q" false (by decide)).1⟩

/-! ## C7: WrapAWSError classification -/

/-- The errors the underlying AWS call can return: transport-level HTTP
response errors and other plain errors — not an already-classified
sdp.QueryError. -/
def isAWSCallError : GoError → Bool
  | .queryError _ => false
  | _ => true

/-- C7: for every error returned by the underlying AWS call, WrapAWSError
yields a NOTFOUND query error exactly when the error is an HTTP response
error with status 400, 403 or 404, and wraps every other such error as a
generic (OTHER) query error. -/
theorem claim7_wrapAWSError_classification (e : GoError) (h : isAWSCallError e = true) :
    ((WrapAWSError e).errorType = .NOTFOUND ↔
      ∃ status msg, e = .httpResponseError status msg
        ∧ (status = 400 ∨ status = 403 ∨ status = 404))
    ∧ ((¬ ∃ status msg, e = .httpResponseError status msg
        ∧ (status = 400 ∨ status = 403 ∨ status = 404)) →
      (WrapAWSError e).errorType = .OTHER) := by
  cases e with
  | httpResponseError status msg =>
    by_cases hst : status = 400 ∨ status = 403 ∨ status = 404 <;>
      simp [WrapAWSError, hst]
  | queryError e => simp [isAWSCallError] at h
  | generic msg => simp [WrapAWSError]

theorem claim7_witness :
    isAWSCallError (.httpResponseError 403 "denied") = true
    ∧ (WrapAWSError (.httpResponseError 403 "denied")).errorType = .NOTFOUND :=
  ⟨rfl, (claim7_wrapAWSError_classification (.httpResponseError 403 "denied") rfl).1.mpr
    ⟨403, "denied", rfl, by decide⟩⟩

/-! ## C8: ARN resource ID and type extraction -/

theorem indexOfSep_split (pre post : List Char) (sep : Char)
    (hsep : resourceSeparator sep = true)
    (hpre : ∀ c ∈ pre, resourceSeparator c = false) :
    indexOfSep (pre ++ sep :: post) = some pre.length := by
  induction pre with
  | nil => simp [indexOfSep, hsep]
  | cons c cs ih =>
    have hc : resourceSeparator c = false := hpre c (by simp)
    have ihh := ih fun d hd => hpre d (by simp [hd])
    simp [indexOfSep, hc, ihh]

/-- C8: for every well-formed ARN whose resource component splits as
`pre ++ sep ++ post` around its first '/' or ':' separator, ResourceID()
is the part after the separator and Type() the part before it; in
particular parsing the ARN of the claim yields ResourceID
"resource-id:suffix" and Type "resource-type". -/
theorem claim8_arn_resource_id_and_type (partition service region accountID : String)
    (pre post : List Char) (sep : Char)
    (hsep : resourceSeparator sep = true)
    (hpre : ∀ c ∈ pre, resourceSeparator c = false) :
    ((ARN.mk partition service region accountID (String.mk (pre ++ sep :: post))).ResourceID
        = String.mk post
      ∧ (ARN.mk partition service region accountID (String.mk (pre ++ sep :: post))).type'
        = String.mk pre)
    ∧ (∃ a : ARN,
        ParseARN "arn:partition:service:region:account-id:resource-type/resource-id:suffix"
          = .ok a
        ∧ a.ResourceID = "resource-id:suffix" ∧ a.type' = "resource-type") := by
  constructor
  · have hidx := indexOfSep_split pre post sep hsep hpre
    constructor
    · simp [ARN.ResourceID, hidx, List.drop_append]
    · simp [ARN.type', hidx, List.take_append]
  · exact ⟨{ partition := "partition", service := "service", region := "region"
             accountID := "account-id", resource := "resource-type/resource-id:suffix" },
      rfl, rfl, rfl⟩

theorem claim8_witness :
    (resourceSeparator '/' = true ∧ ∀ c ∈ ['a', 'b'], resourceSeparator c = false)
    ∧ (ARN.mk "p" "s" "r" "acc" (String.mk (['a', 'b'] ++ '/' :: ['c', ':', 'd']))).ResourceID
        = String.mk ['c', ':', 'd'] :=
  ⟨⟨rfl, by decide⟩,
    ((claim8_arn_resource_id_and_type "p" "s" "r" "acc" ['a', 'b'] ['c', ':', 'd'] '/'
      rfl (by decide)).1).1⟩

/-! ## C10: DisableList -/

/-- C10: with DisableList set, List on a served scope returns an empty
item list and no error without invoking ListFunc and without touching the
cache (the short-circuit runs before the cache is even consulted, so the
result is the same whatever the cache holds); Validate accepts a nil
ListFunc; and Get and Search are unaffected by the flag. -/
theorem claim10_disable_list {AWSItem ClientStruct : Type}
    (s : GetListSource AWSItem ClientStruct) (cache : Cache) (scope query : String)
    (ignoreCache : Bool) (hd : s.DisableList = true) (hs : s.hasScope scope = true) :
    s.List' cache scope ignoreCache = (.ok [], cache, [])
    ∧ (s.GetFunc.isSome → s.ItemMapper.isSome → s.Validate = none)
    ∧ (∀ b : Bool, { s with DisableList := b }.Get cache scope query ignoreCache
        = s.Get cache scope query ignoreCache)
    ∧ (∀ b : Bool, { s with DisableList := b }.Search cache scope query ignoreCache
        = s.Search cache scope query ignoreCache) := by
  refine ⟨?_, ?_, fun b => rfl, fun b => rfl⟩
  · simp [GetListSource.List', hs, hd]
  · intro h1 h2
    obtain ⟨g, hg⟩ := Option.isSome_iff_exists.mp h1
    obtain ⟨m, hm⟩ := Option.isSome_iff_exists.mp h2
    simp [GetListSource.Validate, hd, hg, hm]

/-- The witness adapter for C10: the witness source with List disabled and
no ListFunc at all. -/
def witnessSourceNoList : GetListSource Nat Unit :=
  { witnessSource with DisableList := true, ListFunc := none }

theorem claim10_witness :
    (witnessSourceNoList.DisableList = true
      ∧ witnessSourceNoList.hasScope "123456789012.eu-west-2" = true)
    ∧ witnessSourceNoList.List' emptyCache "123456789012.eu-west-2" false
        = (.ok [], emptyCache, [])
    ∧ witnessSourceNoList.Validate = none := by
  have h := claim10_disable_list witnessSourceNoList emptyCache
    "123456789012.eu-west-2" "q" false rfl (by decide)
  exact ⟨⟨rfl, by decide⟩, h.1, h.2.1 rfl rfl⟩

/-! ## C5: List drops items whose mapping fails -/

/-- The cache effect of the per-item stores of a successful List pass. -/
def storeItems (cache : Cache) (ck : CacheKey) (xs : List Item) (ttl : Nat) : Cache :=
  xs.foldl (fun c i => storeItem c ck i ttl) cache

theorem listLoop_no_tags {AWSItem ClientStruct : Type}
    (s : GetListSource AWSItem ClientStruct)
    (mapper : String → AWSItem → Except GoError Item) (ck : CacheKey) (scope : String)
    (hTags : s.ListTagsFunc = none) :
    ∀ (as : List AWSItem) (cache : Cache) (items : List Item) (calls : List ProviderCall),
      s.listLoop mapper ck scope as cache items calls
        = (.ok (items ++ as.filterMap fun a => (mapper scope a).toOption),
           storeItems cache ck (as.filterMap fun a => (mapper scope a).toOption) s.cacheDuration,
           calls) := by
  intro as
  induction as with
  | nil => intro cache items calls; simp [GetListSource.listLoop, storeItems]
  | cons a rest ih =>
    intro cache items calls
    match hm : mapper scope a with
    | .error e =>
      simp [GetListSource.listLoop, hm, Except.toOption, ih]
    | .ok item =>
      simp [GetListSource.listLoop, hm, hTags, Except.toOption, ih, storeItems]

/-- The behaviour of a cache-missing List call on a served scope with a
successful ListFunc and no tag function, shared by several claims. -/
theorem list_success_no_tags {AWSItem ClientStruct : Type}
    (s : GetListSource AWSItem ClientStruct) (cache : Cache) (scope : String)
    (lf : ClientStruct → String → Except GoError (List AWSItem))
    (mapper : String → AWSItem → Except GoError Item) (awsItems : List AWSItem)
    (hs : s.hasScope scope = true) (hd : s.DisableList = false)
    (hmiss : cache (s.listKey scope) = none)
    (hlf : s.ListFunc = some lf) (hl : lf s.Client scope = .ok awsItems)
    (hm : s.ItemMapper = some mapper) (hTags : s.ListTagsFunc = none) :
    s.List' cache scope false
      = (.ok (awsItems.filterMap fun a => (mapper scope a).toOption),
         storeItems cache (s.listKey scope)
           (awsItems.filterMap fun a => (mapper scope a).toOption) s.cacheDuration,
         [.listCall scope]) := by
  simp [GetListSource.List', hs, hd, cacheLookup, hmiss, hlf, hl, hm,
    listLoop_no_tags s mapper _ scope hTags]

/-- C5: on a served scope, when ListFunc succeeds, List returns exactly the
items whose mapping succeeded, in their original order, with no error —
mapper failures only drop the affected item (adapter without a tag
function; stores go to the List cache key). -/
theorem claim5_list_partial_results {AWSItem ClientStruct : Type}
    (s : GetListSource AWSItem ClientStruct) (cache : Cache) (scope : String)
    (lf : ClientStruct → String → Except GoError (List AWSItem))
    (mapper : String → AWSItem → Except GoError Item) (awsItems : List AWSItem)
    (hs : s.hasScope scope = true) (hd : s.DisableList = false)
    (hmiss : cache (s.listKey scope) = none)
    (hlf : s.ListFunc = some lf) (hl : lf s.Client scope = .ok awsItems)
    (hm : s.ItemMapper = some mapper) (hTags : s.ListTagsFunc = none) :
    s.List' cache scope false
      = (.ok (awsItems.filterMap fun a => (mapper scope a).toOption),
         storeItems cache (s.listKey scope)
           (awsItems.filterMap fun a => (mapper scope a).toOption) s.cacheDuration,
         [.listCall scope]) :=
  list_success_no_tags s cache scope lf mapper awsItems hs hd hmiss hlf hl hm hTags

/-- The witness adapter for C5: the witness source with a mapper that fails
on the middle raw item. -/
def witnessSourcePartial : GetListSource Nat Unit :=
  { witnessSource with
    ItemMapper := some fun scope a =>
      if a = 2 then .error (.generic "unmappable")
      else .ok { itemType := "test-type", uniqueAttribute := "name"
                 attributes := [("name", String.mk (List.replicate a 'x'))]
                 scope := scope, tags := none } }

theorem claim5_witness :
    (witnessSourcePartial.hasScope "123456789012.eu-west-2" = true
      ∧ witnessSourcePartial.DisableList = false)
    ∧ (witnessSourcePartial.List' emptyCache "123456789012.eu-west-2" false).1
      = .ok [{ itemType := "test-type", uniqueAttribute := "name"
               attributes := [("name", "x")], scope := "123456789012.eu-west-2", tags := none },
             { itemType := "test-type", uniqueAttribute := "name"
               attributes := [("name", "xxx")], scope := "123456789012.eu-west-2", tags := none }] := by
  have h := claim5_list_partial_results witnessSourcePartial emptyCache
    "123456789012.eu-west-2" _ _ [1, 2, 3] (by decide) rfl rfl rfl rfl rfl rfl
  exact ⟨⟨by decide, rfl⟩, by rw [h]; rfl⟩

/-! ## C2: negative caching of provider errors -/

theorem canRetry_false_iff (q : QueryError) :
    CanRetry q = false ↔ (q.errorType = .NOTFOUND ∨ q.errorType = .NOSCOPE) := by
  cases h : q.errorType <;> simp [CanRetry, h]

theorem processError_fst {AWSItem ClientStruct : Type}
    (s : GetListSource AWSItem ClientStruct) (cache : Cache) (ck : CacheKey) (e : GoError) :
    (s.processError cache ck e).1 = WrapAWSError e := by
  unfold GetListSource.processError
  dsimp only
  split <;> rfl

/-- C2 (amended): for the Get path, a failing GetFunc yields the wrapped
error, and the error is stored as a negative cache entry exactly when it is
non-retryable (NOTFOUND or NOSCOPE); a second identical Get then returns
the cached error without re-invoking GetFunc, while after a retryable
(generic) error a second Get re-invokes GetFunc. -/
theorem claim2_get_negative_caching {AWSItem ClientStruct : Type}
    (s : GetListSource AWSItem ClientStruct) (cache : Cache) (scope query : String)
    (getFunc : ClientStruct → String → String → Except GoError AWSItem) (e : GoError)
    (hs : s.hasScope scope = true)
    (hg : s.GetFunc = some getFunc)
    (he : getFunc s.Client scope query = .error e)
    (hmiss : cache (s.getKey scope query) = none) :
    (CanRetry (WrapAWSError e) = false ↔
      ((WrapAWSError e).errorType = .NOTFOUND ∨ (WrapAWSError e).errorType = .NOSCOPE))
    ∧ (s.Get cache scope query false).1 = .queryErr (WrapAWSError e)
    ∧ (s.Get cache scope query false).2.2 = [.getCall scope query]
    ∧ (s.Get cache scope query false).2.1 (s.getKey scope query)
        = (if CanRetry (WrapAWSError e) then none
           else some (.error (WrapAWSError e) s.cacheDuration))
    ∧ (CanRetry (WrapAWSError e) = false →
        s.Get ((s.Get cache scope query false).2.1) scope query false
          = (.queryErr (WrapAWSError e), (s.Get cache scope query false).2.1, []))
    ∧ (CanRetry (WrapAWSError e) = true →
        (s.Get ((s.Get cache scope query false).2.1) scope query false).2.2
          = [.getCall scope query]) := by
  refine ⟨canRetry_false_iff _, ?_⟩
  have hfirst : s.Get cache scope query false
      = (.queryErr (WrapAWSError e), (s.processError cache (s.getKey scope query) e).2,
         [.getCall scope query]) := by
    simp [GetListSource.Get, hs, cacheLookup, hmiss, hg, he, processError_fst]
  by_cases hr : (WrapAWSError e).errorType = .NOTFOUND ∨ (WrapAWSError e).errorType = .NOSCOPE
  · have hcr : CanRetry (WrapAWSError e) = false := (canRetry_false_iff _).mpr hr
    have hstore : (s.processError cache (s.getKey scope query) e).2
        = storeError cache (s.getKey scope query) (WrapAWSError e) s.cacheDuration := by
      simp [GetListSource.processError, hr]
    refine ⟨by rw [hfirst], by rw [hfirst], ?_, ?_, ?_⟩
    · rw [hfirst]; simp [hcr, hstore, storeError]
    · intro _
      rw [hfirst]
      simp only [hstore]
      simp [GetListSource.Get, hs, cacheLookup, storeError]
    · intro hc; rw [hcr] at hc; exact absurd hc (by simp)
  · have hcr : CanRetry (WrapAWSError e) = true := by
      cases hc : CanRetry (WrapAWSError e) with
      | false => exact absurd ((canRetry_false_iff _).mp hc) hr
      | true => rfl
    have hnostore : (s.processError cache (s.getKey scope query) e).2 = cache := by
      simp [GetListSource.processError, hr]
    refine ⟨by rw [hfirst], by rw [hfirst], ?_, ?_, ?_⟩
    · rw [hfirst]; simp [hcr, hnostore, hmiss]
    · intro hc; rw [hcr] at hc; exact absurd hc (by simp)
    · intro _
      rw [hfirst]
      simp only [hnostore]
      simp [GetListSource.Get, hs, cacheLookup, hmiss, hg, he]

/-- The witness adapter for C2: GetFunc fails with an HTTP 404. -/
def notFoundGetSource : GetListSource Nat Unit :=
  { witnessSource with GetFunc := some fun _ _ _ => .error (.httpResponseError 404 "no instance") }

theorem claim2_witness :
    (notFoundGetSource.hasScope "123456789012.eu-west-2" = true
      ∧ emptyCache (notFoundGetSource.getKey "123456789012.eu-west-2" "i-1") = none)
    ∧ (notFoundGetSource.Get emptyCache "123456789012.eu-west-2" "i-1" false).2.1
        (notFoundGetSource.getKey "123456789012.eu-west-2" "i-1")
      = some (.error (WrapAWSError (.httpResponseError 404 "no instance"))
          notFoundGetSource.cacheDuration) := by
  have h := claim2_get_negative_caching notFoundGetSource emptyCache
    "123456789012.eu-west-2" "i-1" _ (.httpResponseError 404 "no instance")
    (by decide) rfl rfl rfl
  refine ⟨⟨by decide, rfl⟩, ?_⟩
  rw [h.2.2.2.1]
  rfl

/-- The counterexample adapter for C2: ListFunc fails with an HTTP 404. -/
def notFoundListSource : GetListSource Nat Unit :=
  { witnessSource with ListFunc := some fun _ _ => .error (.httpResponseError 404 "not found") }

/-- C2 counterexample: a provider (ListFunc) failure whose classified type
is NOTFOUND is nevertheless not stored as a negative cache entry, and a
second identical List call re-invokes the provider — refuting the claim's
"if and only if" and its second-call clause for List. -/
theorem claim2_counterexample :
    (WrapAWSError (.httpResponseError 404 "not found")).errorType = .NOTFOUND
    ∧ (notFoundListSource.List' emptyCache "123456789012.eu-west-2" false).1
      = .queryErr (WrapAWSError (.httpResponseError 404 "not found"))
    ∧ (notFoundListSource.List' emptyCache "123456789012.eu-west-2" false).2.1
        (notFoundListSource.listKey "123456789012.eu-west-2") = none
    ∧ (notFoundListSource.List'
        ((notFoundListSource.List' emptyCache "123456789012.eu-west-2" false).2.1)
        "123456789012.eu-west-2" false).2.2
      = [.listCall "123456789012.eu-west-2"] := by
  refine ⟨rfl, by decide, rfl, by decide⟩

/-! ## C3: TTL used when storing cache entries -/

/-- The item the witness source's mapper builds for the raw AWS item `n`
in the witness scope. -/
def wItem (n : Nat) : Item :=
  { itemType := "test-type", uniqueAttribute := "name"
    attributes := [("name", String.mk (List.replicate n 'x'))]
    scope := "123456789012.eu-west-2", tags := none }

/-- C3 evidence: with CacheDuration unset (zero), the defaulted duration is
DefaultCacheDuration and List stores its items with it (line 220 uses
`s.cacheDuration()`), but Get stores its item with TTL 0 because line 170
passes the raw `s.CacheDuration` field — contradicting the documented
default-when-unset behaviour that the rest of the same file implements. -/
theorem claim3_get_store_skips_default_ttl :
    witnessSource.CacheDuration = 0
    ∧ witnessSource.cacheDuration = DefaultCacheDuration
    ∧ DefaultCacheDuration ≠ 0
    ∧ (witnessSource.Get emptyCache "123456789012.eu-west-2" "q" false).2.1
        (witnessSource.getKey "123456789012.eu-west-2" "q")
      = some (.items [wItem 7] 0)
    ∧ (witnessSource.List' emptyCache "123456789012.eu-west-2" false).2.1
        (witnessSource.listKey "123456789012.eu-west-2")
      = some (.items [wItem 1, wItem 2, wItem 3] DefaultCacheDuration) :=
  ⟨rfl, rfl, by decide, rfl, rfl⟩

/-! ## C4: tag-fetch failures -/

/-- C4 (amended): during Get, a failing ListTagsFunc degrades to the
HandleTagsError marker tag map — the item is still returned, stored, and
the operation does not fail. -/
theorem claim4_get_tag_failure_degrades {AWSItem ClientStruct : Type}
    (s : GetListSource AWSItem ClientStruct) (cache : Cache) (scope query : String)
    (getFunc : ClientStruct → String → String → Except GoError AWSItem)
    (mapper : String → AWSItem → Except GoError Item)
    (tagsFn : AWSItem → ClientStruct → Except GoError (List (String × String)))
    (awsItem : AWSItem) (item : Item) (e : GoError)
    (hs : s.hasScope scope = true)
    (hmiss : cache (s.getKey scope query) = none)
    (hg : s.GetFunc = some getFunc)
    (hga : getFunc s.Client scope query = .ok awsItem)
    (hm : s.ItemMapper = some mapper)
    (hmi : mapper scope awsItem = .ok item)
    (ht : s.ListTagsFunc = some tagsFn)
    (hte : tagsFn awsItem s.Client = .error e) :
    HandleTagsError e = [("errorGettingTags", "true"), ("error", e.message)]
    ∧ s.Get cache scope query false
      = (.ok (some { item with tags := some (HandleTagsError e) }),
         storeItem cache (s.getKey scope query)
           { item with tags := some (HandleTagsError e) } s.CacheDuration,
         [.getCall scope query, .listTagsCall]) := by
  refine ⟨rfl, ?_⟩
  simp [GetListSource.Get, hs, cacheLookup, hmiss, hg, hga, hm, hmi, ht, hte]

/-- The adapter for C4: tag listing always fails. -/
def tagFailSource : GetListSource Nat Unit :=
  { witnessSource with ListTagsFunc := some fun _ _ => .error (.generic "tag boom") }

theorem claim4_witness :
    (tagFailSource.hasScope "123456789012.eu-west-2" = true
      ∧ emptyCache (tagFailSource.getKey "123456789012.eu-west-2" "q") = none)
    ∧ (tagFailSource.Get emptyCache "123456789012.eu-west-2" "q" false).1
      = .ok (some { wItem 7 with
          tags := some [("errorGettingTags", "true"), ("error", "tag boom")] }) := by
  have h := claim4_get_tag_failure_degrades tagFailSource emptyCache
    "123456789012.eu-west-2" "q" _ _ _ 7 _ (.generic "tag boom")
    (by decide) rfl rfl rfl rfl rfl rfl rfl
  exact ⟨⟨by decide, rfl⟩, by rw [h.2]; rfl⟩

/-- C4 counterexample: during List the same tag-fetch failure is not
degraded to marker tags — the whole List call fails with the processed
error and returns no items, even though every raw item was listed and
mapped successfully. -/
theorem claim4_counterexample :
    (tagFailSource.List' emptyCache "123456789012.eu-west-2" false).1
      = .queryErr { errorType := .OTHER, errorString := "tag boom" }
    ∧ (tagFailSource.List' emptyCache "123456789012.eu-west-2" false).2.2
      = [.listCall "123456789012.eu-west-2", .listTagsCall] := by
  exact ⟨rfl, rfl⟩

/-! ## C6: cache round trips -/

theorem storeItems_apply_acc (ck : CacheKey) (ttl : Nat) :
    ∀ (xs : List Item) (cache : Cache) (acc : List Item),
      cache ck = some (.items acc ttl) →
      storeItems cache ck xs ttl ck = some (.items (acc ++ xs) ttl) := by
  intro xs
  induction xs with
  | nil => intro cache acc h; simpa [storeItems] using h
  | cons x xs ih =>
    intro cache acc h
    have hstep : storeItem cache ck x ttl ck = some (.items (acc ++ [x]) ttl) := by
      simp [storeItem, h]
    have := ih (storeItem cache ck x ttl) (acc ++ [x]) hstep
    simpa [storeItems, List.append_assoc] using this

theorem cacheLookup_storeItems_of_none (ck : CacheKey) (ttl : Nat) (cache : Cache)
    (xs : List Item) (h : cache ck = none) (hne : xs ≠ []) :
    cacheLookup (storeItems cache ck xs ttl) ck false = .cachedItems xs := by
  match xs, hne with
  | x :: ys, _ =>
    have hstep : storeItem cache ck x ttl ck = some (.items [x] ttl) := by
      simp [storeItem, h]
    have := storeItems_apply_acc ck ttl ys (storeItem cache ck x ttl) [x] hstep
    simp [storeItems] at this ⊢
    simp [cacheLookup, this]

/-- C6 (amended): with deterministic providers and a cold cache, a
successful Get stores its item and a second identical Get with
ignoreCache=false returns the very same item from the cache without
re-invoking GetFunc, while ignoreCache=true bypasses the cache and
re-invokes it; the same round trip holds for List (when it returns at
least one item) and for ARN-based Search, which delegates to the cached
Get.  (Custom Search — a set SearchFunc — performs no caching; see the
counterexample.) -/
theorem claim6_cache_round_trip {AWSItem ClientStruct : Type}
    (s : GetListSource AWSItem ClientStruct) (cache : Cache)
    (scope query arnQuery : String) (a : ARN)
    (getFunc : ClientStruct → String → String → Except GoError AWSItem)
    (mapper : String → AWSItem → Except GoError Item)
    (lf : ClientStruct → String → Except GoError (List AWSItem))
    (awsItem : AWSItem) (item : Item) (awsItems : List AWSItem)
    (hs : s.hasScope scope = true)
    (hTags : s.ListTagsFunc = none)
    (hg : s.GetFunc = some getFunc)
    (hga : getFunc s.Client scope query = .ok awsItem)
    (hm : s.ItemMapper = some mapper)
    (hmi : mapper scope awsItem = .ok item)
    (hmissG : cache (s.getKey scope query) = none)
    (hd : s.DisableList = false)
    (hlf : s.ListFunc = some lf)
    (hl : lf s.Client scope = .ok awsItems)
    (hmissL : cache (s.listKey scope) = none)
    (hsf : s.SearchFunc = none)
    (ha : ParseARN arnQuery = .ok a)
    (haScope : s.hasScope (FormatScope a.accountID a.region) = true)
    (haRes : a.ResourceID = query) :
    (s.Get cache scope query false
        = (.ok (some item), storeItem cache (s.getKey scope query) item s.CacheDuration,
           [.getCall scope query])
      ∧ s.Get (storeItem cache (s.getKey scope query) item s.CacheDuration) scope query false
        = (.ok (some item), storeItem cache (s.getKey scope query) item s.CacheDuration, [])
      ∧ (s.Get (storeItem cache (s.getKey scope query) item s.CacheDuration) scope query
          true).2.2 = [.getCall scope query])
    ∧ ((s.List' cache scope false).1
        = .ok (awsItems.filterMap fun x => (mapper scope x).toOption)
      ∧ (s.List' cache scope false).2.2 = [.listCall scope]
      ∧ ((awsItems.filterMap fun x => (mapper scope x).toOption) ≠ [] →
          s.List' ((s.List' cache scope false).2.1) scope false
            = (.ok (awsItems.filterMap fun x => (mapper scope x).toOption),
               (s.List' cache scope false).2.1, []))
      ∧ (s.List' ((s.List' cache scope false).2.1) scope true).2.2 = [.listCall scope])
    ∧ (s.Search cache scope arnQuery false
        = (.ok [item], storeItem cache (s.getKey scope query) item s.CacheDuration,
           [.getCall scope query])
      ∧ s.Search (storeItem cache (s.getKey scope query) item s.CacheDuration) scope arnQuery
          false
        = (.ok [item], storeItem cache (s.getKey scope query) item s.CacheDuration, [])) := by
  have hG1 : s.Get cache scope query false
      = (.ok (some item), storeItem cache (s.getKey scope query) item s.CacheDuration,
         [.getCall scope query]) := by
    simp [GetListSource.Get, hs, cacheLookup, hmissG, hg, hga, hm, hmi, hTags]
  have hhit : cacheLookup (storeItem cache (s.getKey scope query) item s.CacheDuration)
      (s.getKey scope query) false = .cachedItems [item] := by
    simp [cacheLookup, storeItem, hmissG]
  have hG2 : s.Get (storeItem cache (s.getKey scope query) item s.CacheDuration) scope query
      false
      = (.ok (some item), storeItem cache (s.getKey scope query) item s.CacheDuration, []) := by
    simp [GetListSource.Get, hs, hhit]
  have hG3 : (s.Get (storeItem cache (s.getKey scope query) item s.CacheDuration) scope query
      true).2.2 = [.getCall scope query] := by
    simp [GetListSource.Get, hs, cacheLookup, hg, hga, hm, hmi, hTags]
  have hL1 : s.List' cache scope false
      = (.ok (awsItems.filterMap fun x => (mapper scope x).toOption),
         storeItems cache (s.listKey scope)
           (awsItems.filterMap fun x => (mapper scope x).toOption) s.cacheDuration,
         [.listCall scope]) :=
    list_success_no_tags s cache scope lf mapper awsItems hs hd hmissL hlf hl hm hTags
  refine ⟨⟨hG1, hG2, hG3⟩, ⟨by rw [hL1], by rw [hL1], ?_, ?_⟩, ?_, ?_⟩
  · intro hne
    have hlook := cacheLookup_storeItems_of_none (s.listKey scope) s.cacheDuration cache
      (awsItems.filterMap fun x => (mapper scope x).toOption) hmissL hne
    rw [hL1]
    simp [GetListSource.List', hs, hd, hlook]
  · rw [hL1]
    simp [GetListSource.List', hs, hd, cacheLookup, hlf, hl, hm,
      listLoop_no_tags s mapper _ scope hTags]
  · have : s.Search cache scope arnQuery false = s.SearchARN cache scope arnQuery false := by
      simp [GetListSource.Search, hs, hsf]
    rw [this]
    unfold GetListSource.SearchARN
    rw [ha]
    simp only [haScope, haRes]
    rw [hG1]
    simp
  · have : s.Search (storeItem cache (s.getKey scope query) item s.CacheDuration) scope
        arnQuery false
        = s.SearchARN (storeItem cache (s.getKey scope query) item s.CacheDuration) scope
            arnQuery false := by
      simp [GetListSource.Search, hs, hsf]
    rw [this]
    unfold GetListSource.SearchARN
    rw [ha]
    simp only [haScope, haRes]
    rw [hG2]
    simp

theorem claim6_witness :
    (witnessSource.hasScope "123456789012.eu-west-2" = true
      ∧ ParseARN "arn:aws:test-type:eu-west-2:123456789012:instance/q"
          = .ok ⟨"aws", "test-type", "eu-west-2", "123456789012", "instance/q"⟩)
    ∧ witnessSource.Get
        (storeItem emptyCache (witnessSource.getKey "123456789012.eu-west-2" "q") (wItem 7)
          witnessSource.CacheDuration) "123456789012.eu-west-2" "q" false
      = (.ok (some (wItem 7)),
         storeItem emptyCache (witnessSource.getKey "123456789012.eu-west-2" "q") (wItem 7)
           witnessSource.CacheDuration, []) := by
  have h := claim6_cache_round_trip witnessSource emptyCache "123456789012.eu-west-2" "q"
    "arn:aws:test-type:eu-west-2:123456789012:instance/q"
    ⟨"aws", "test-type", "eu-west-2", "123456789012", "instance/q"⟩
    _ _ _ 7 (wItem 7) [1, 2, 3]
    (by decide) rfl rfl rfl rfl rfl rfl rfl rfl rfl rfl rfl rfl (by decide) rfl
  exact ⟨⟨by decide, rfl⟩, h.1.2.1⟩

/-- The counterexample adapter for C6: a custom SearchFunc is configured. -/
def customSearchSource : GetListSource Nat Unit :=
  { witnessSource with SearchFunc := some fun _ _ _ => .ok [5] }

/-- C6 counterexample: with a custom SearchFunc, two consecutive identical
Search calls with ignoreCache=false each invoke the provider — the second
call is not served from the cache, refuting the claim for Search. -/
theorem claim6_counterexample :
    (customSearchSource.Search emptyCache "123456789012.eu-west-2" "5" false).2.2
      = [.searchCall "123456789012.eu-west-2" "5"]
    ∧ (customSearchSource.Search
        ((customSearchSource.Search emptyCache "123456789012.eu-west-2" "5" false).2.1)
        "123456789012.eu-west-2" "5" false).2.2
      = [.searchCall "123456789012.eu-west-2" "5"] :=
  ⟨rfl, rfl⟩

/-! ## C9: pagination -/

theorem paginateList_stop {σ Out : Type} (p : Paginator σ Out) (m : Out → List Item)
    (st : σ) (h : p.hasMorePages st = false) :
    ∀ (fuel : Nat) (acc : List Item), paginateList p m fuel st acc = some acc := by
  intro fuel acc
  cases fuel <;> simp [paginateList, h]

theorem paginateList_step {σ Out : Type} (p : Paginator σ Out) (m : Out → List Item)
    (fuel : Nat) (st : σ) (acc : List Item) (h : p.hasMorePages st = true) :
    paginateList p m (fuel + 1) st acc
      = paginateList p m fuel (p.nextPage st).2 (acc ++ m (p.nextPage st).1) := by
  rcases hp : p.nextPage st with ⟨o, st'⟩
  simp [paginateList, h, hp]

/-- C9: the pagination loop over the TestPaginator of the describe-source
test (3 pages, OutputMapper yielding one item per page) terminates with
exactly 3 aggregated items; and over the token-based ECS paginator the loop
terminates for every backend that keeps answering with one and the same
continuation token — the same-token detection nils the token after the
repeat, whatever the initial token was. -/
theorem claim9_pagination {Out : Type} (data : String) (mapper : String → List Item)
    (backend : Option String → Out × Option String) (mapper2 : Out → List Item)
    (T : String) (t0 : Option String)
    (hlen : (mapper data).length = 1)
    (hT : T.length ≠ 0)
    (hb : ∀ t, (backend t).2 = some T) :
    (∀ fuel, 3 ≤ fuel →
      ∃ l, paginateList (testPaginator data) mapper fuel ⟨0, 0⟩ [] = some l ∧ l.length = 3)
    ∧ (∃ l, ∀ fuel, 2 ≤ fuel →
        paginateList (capacityProvidersPaginator backend) mapper2 fuel ⟨true, t0⟩ [] = some l) := by
  constructor
  · intro fuel hf
    obtain ⟨k, rfl⟩ : ∃ k, fuel = k + 1 + 1 + 1 := ⟨fuel - 3, by omega⟩
    refine ⟨mapper data ++ mapper data ++ mapper data, ?_, by simp [hlen]⟩
    have e1 : paginateList (testPaginator data) mapper (k + 1 + 1 + 1) ⟨0, 0⟩ []
        = paginateList (testPaginator data) mapper (k + 1 + 1) ⟨0, 1⟩ (mapper data) := by
      rw [paginateList_step (testPaginator data) mapper (k + 1 + 1) ⟨0, 0⟩ [] rfl]
      simp [testPaginator]
    have e2 : paginateList (testPaginator data) mapper (k + 1 + 1) ⟨0, 1⟩ (mapper data)
        = paginateList (testPaginator data) mapper (k + 1) ⟨0, 2⟩
            (mapper data ++ mapper data) := by
      rw [paginateList_step (testPaginator data) mapper (k + 1) ⟨0, 1⟩ (mapper data) rfl]
      simp [testPaginator]
    have e3 : paginateList (testPaginator data) mapper (k + 1) ⟨0, 2⟩
          (mapper data ++ mapper data)
        = paginateList (testPaginator data) mapper k ⟨0, 3⟩
            (mapper data ++ mapper data ++ mapper data) := by
      rw [paginateList_step (testPaginator data) mapper k ⟨0, 2⟩
        (mapper data ++ mapper data) rfl]
      simp [testPaginator]
    rw [e1, e2, e3, paginateList_stop (testPaginator data) mapper ⟨0, 3⟩ rfl]
  · rcases hbt0 : backend t0 with ⟨o1, t1⟩
    have ht1 : t1 = some T := by have h := hb t0; rw [hbt0] at h; exact h
    subst ht1
    rcases hbT : backend (some T) with ⟨o2, t2⟩
    have ht2 : t2 = some T := by have h := hb (some T); rw [hbT] at h; exact h
    subst ht2
    have hmoreT : (capacityProvidersPaginator backend).hasMorePages ⟨false, some T⟩ = true := by
      simp [capacityProvidersPaginator, hT]
    cases t0 with
    | none =>
      refine ⟨mapper2 o1 ++ mapper2 o2, ?_⟩
      intro fuel hf
      obtain ⟨k, rfl⟩ : ∃ k, fuel = k + 1 + 1 := ⟨fuel - 2, by omega⟩
      have e1 : paginateList (capacityProvidersPaginator backend) mapper2 (k + 1 + 1)
            ⟨true, none⟩ []
          = paginateList (capacityProvidersPaginator backend) mapper2 (k + 1)
              ⟨false, some T⟩ (mapper2 o1) := by
        rw [paginateList_step (capacityProvidersPaginator backend) mapper2 (k + 1)
          ⟨true, none⟩ [] rfl]
        simp [capacityProvidersPaginator, hbt0]
      have e2 : paginateList (capacityProvidersPaginator backend) mapper2 (k + 1)
            ⟨false, some T⟩ (mapper2 o1)
          = paginateList (capacityProvidersPaginator backend) mapper2 k
              ⟨false, none⟩ (mapper2 o1 ++ mapper2 o2) := by
        rw [paginateList_step (capacityProvidersPaginator backend) mapper2 k
          ⟨false, some T⟩ (mapper2 o1) hmoreT]
        simp [capacityProvidersPaginator, hbT]
      rw [e1, e2,
        paginateList_stop (capacityProvidersPaginator backend) mapper2 ⟨false, none⟩ rfl]
    | some tPrev =>
      by_cases hprev : tPrev = T
      · subst hprev
        refine ⟨mapper2 o1, ?_⟩
        intro fuel hf
        obtain ⟨k, rfl⟩ : ∃ k, fuel = k + 1 := ⟨fuel - 1, by omega⟩
        have e1 : paginateList (capacityProvidersPaginator backend) mapper2 (k + 1)
              ⟨true, some tPrev⟩ []
            = paginateList (capacityProvidersPaginator backend) mapper2 k
                ⟨false, none⟩ (mapper2 o1) := by
          rw [paginateList_step (capacityProvidersPaginator backend) mapper2 k
            ⟨true, some tPrev⟩ [] rfl]
          simp [capacityProvidersPaginator, hbt0]
        rw [e1,
          paginateList_stop (capacityProvidersPaginator backend) mapper2 ⟨false, none⟩ rfl]
      · refine ⟨mapper2 o1 ++ mapper2 o2, ?_⟩
        intro fuel hf
        obtain ⟨k, rfl⟩ : ∃ k, fuel = k + 1 + 1 := ⟨fuel - 2, by omega⟩
        have e1 : paginateList (capacityProvidersPaginator backend) mapper2 (k + 1 + 1)
              ⟨true, some tPrev⟩ []
            = paginateList (capacityProvidersPaginator backend) mapper2 (k + 1)
                ⟨false, some T⟩ (mapper2 o1) := by
          rw [paginateList_step (capacityProvidersPaginator backend) mapper2 (k + 1)
            ⟨true, some tPrev⟩ [] rfl]
          simp [capacityProvidersPaginator, hbt0, hprev]
        have e2 : paginateList (capacityProvidersPaginator backend) mapper2 (k + 1)
              ⟨false, some T⟩ (mapper2 o1)
            = paginateList (capacityProvidersPaginator backend) mapper2 k
                ⟨false, none⟩ (mapper2 o1 ++ mapper2 o2) := by
          rw [paginateList_step (capacityProvidersPaginator backend) mapper2 k
            ⟨false, some T⟩ (mapper2 o1) hmoreT]
          simp [capacityProvidersPaginator, hbT]
        rw [e1, e2,
          paginateList_stop (capacityProvidersPaginator backend) mapper2 ⟨false, none⟩ rfl]

theorem claim9_witness :
    (((fun _ => [wItem 1]) : String → List Item) "foo").length = 1
    ∧ ("TOKEN" : String).length ≠ 0
    ∧ (∃ l, paginateList (testPaginator "foo") (fun _ => [wItem 1]) 3 ⟨0, 0⟩ [] = some l
        ∧ l.length = 3)
    ∧ (∃ l, ∀ fuel, 2 ≤ fuel →
        paginateList
          (capacityProvidersPaginator (fun _ => ((), some "TOKEN")))
          (fun _ => []) fuel ⟨true, none⟩ [] = some l) := by
  have h := claim9_pagination "foo" (fun _ => [wItem 1])
    (fun _ => ((), some "TOKEN")) (fun _ => []) "TOKEN" none rfl (by decide) (fun _ => rfl)
  exact ⟨rfl, by decide, h.1 3 (by decide), h.2⟩

end AwsSource
